import Mathlib

/-!
# enumgen: extraction, generated switches and the command driver

A shallow embedding of `generator.go`, `templates.go`, `command.go` and
`cmd/enumgen/main.go`.

* Go strings are Lean `String`s.  Go compares strings byte-wise; on valid UTF-8
  the byte-wise order coincides with the lexicographic order of the code
  points, which is what `stringLess` computes.
* `go/types` is an external collaborator.  Only what `extract` inspects is
  represented: the dynamic kind of an object, its name, its type, the string
  form and underlying type of a type, the `Info()` bits of a basic type and the
  `ExactString()` of a constant's value.
* A Go map has no iteration order.  Every `range` over `pkg.defs` is given the
  sequence in which it visits the entries; the sequences are permutations of
  `pkg.defs`.
* `sort.Slice` belongs to the standard library.  `extract` takes it as a
  parameter; `SortSlice.Conforms` is its documented contract and
  `insertionSortFunc` is what the library runs on slices shorter than twelve
  elements.
-/

namespace Enumgen

/-! ## Strings -/

/-- Lexicographic "less than" on sequences of numbers. -/
def lexLess : List Nat → List Nat → Bool
  | _, [] => false
  | [], _ :: _ => true
  | a :: as, b :: bs => if a < b then true else if b < a then false else lexLess as bs

/-- Go's `<` on strings. -/
def stringLess (a b : String) : Bool :=
  lexLess (a.data.map Char.toNat) (b.data.map Char.toNat)

/-! ## go/types -/

/-- `types.BasicInfo` flag `IsBoolean`. -/
def IsBoolean : Nat := 1
/-- `types.BasicInfo` flag `IsInteger`. -/
def IsInteger : Nat := 2
/-- `types.BasicInfo` flag `IsUnsigned`. -/
def IsUnsigned : Nat := 4
/-- `types.BasicInfo` flag `IsFloat`. -/
def IsFloat : Nat := 8
/-- `types.BasicInfo` flag `IsComplex`. -/
def IsComplex : Nat := 16
/-- `types.BasicInfo` flag `IsString`. -/
def IsString : Nat := 32
/-- `types.BasicInfo` flag `IsUntyped`. -/
def IsUntyped : Nat := 64

/-- A `types.Type`: a `*types.Basic` with its `Info()` bits, a `*types.Named`
with the package path and name of its type name and its underlying type, or any
other type (struct, pointer, slice, map, signature, ...) with its string form. -/
inductive GoType where
  | Basic (name : String) (info : Nat)
  | Named (pkgPath : Option String) (name : String) (underlying : GoType)
  | Other (repr : String)
deriving DecidableEq, Repr

/-- `Type.String()`: a named type prints as package path, dot, name. -/
def GoType.String : GoType → String
  | .Basic name _ => name
  | .Named (some p) name _ => p ++ "." ++ name
  | .Named none name _ => name
  | .Other repr => repr

/-- `Type.Underlying()`. -/
def GoType.Underlying : GoType → GoType
  | .Named _ _ u => u.Underlying
  | t => t

/-- The flag `ok` of the assertion `t.(*types.Named)`. -/
def GoType.isNamed : GoType → Bool
  | .Named _ _ _ => true
  | _ => false

/-- The type `types.Typ[types.Invalid]`, carried by objects that have no type. -/
def invalidType : GoType := .Basic "invalid type" 0

/-- A `types.Object`, by dynamic type.  A constant carries the `ExactString()`
of its value. -/
inductive Object where
  | Const (name : String) (typ : GoType) (val : String)
  | TypeName (name : String) (typ : GoType)
  | Var (name : String) (typ : GoType)
  | Func (name : String) (typ : GoType)
  | Label (name : String)
  | PkgName (name : String)
deriving DecidableEq, Repr

/-- `Object.Name()`. -/
def Object.Name : Object → String
  | .Const n _ _ => n
  | .TypeName n _ => n
  | .Var n _ => n
  | .Func n _ => n
  | .Label n => n
  | .PkgName n => n

/-- `Object.Type()`. -/
def Object.Type : Object → GoType
  | .Const _ t _ => t
  | .TypeName _ t => t
  | .Var _ t => t
  | .Func _ t => t
  | .Label _ => invalidType
  | .PkgName _ => invalidType

/-! ## generator.go: data model -/

/-- `type kind int`. -/
abbrev kind := Int

/-- `intKind kind = 1`. -/
def intKind : kind := 1
/-- `stringKind kind = 2`. -/
def stringKind : kind := 2

/-- `type packageInfo struct`; `defs` holds the values of the
`map[*ast.Ident]types.Object`, one per key, `none` for a nil object. -/
structure packageInfo where
  fullName : String
  name : String
  defs : List (Option Object)
deriving DecidableEq, Repr

/-- `type constantValue struct`. -/
structure constantValue where
  Name : String
  Value : String
  Const : Object
deriving DecidableEq, Repr

/-- `type constants struct`. -/
structure constants where
  FullName : String
  Name : String
  Empty : String
  Kind : kind
  Values : List constantValue
deriving DecidableEq, Repr

/-- The errors of the program.  The ones built with `fmt.Errorf` are kept
structured, with the arguments of the format string. -/
inductive GoError where
  /-- `usageError(msg)` of command.go. -/
  | usageError (msg : String)
  /-- `fmt.Errorf("could not find def for %s", typeName)`. -/
  | couldNotFindDef (typeName : String)
  /-- `fmt.Errorf("type %q is not a string or integer type", typeName)`. -/
  | notStringOrInteger (typeName : String)
  /-- `fmt.Errorf("package %q not found", pkgName)`. -/
  | packageNotFound (pkgName : String)
  /-- `fmt.Errorf("unsupported kind")`. -/
  | unsupportedKind
  /-- An error of the file system for which `os.IsNotExist` holds. -/
  | notExist (path : String)
  /-- `flag.ErrHelp`. -/
  | errHelp
  /-- Any other error handed back by a collaborator. -/
  | external (msg : String)
deriving DecidableEq, Repr

/-- How a Go call ends: it returns its value with a nil error, it returns an
error, or it panics. -/
inductive Result (α : Type) where
  | ok (v : α)
  | error (e : GoError)
  | panic (msg : String)
deriving DecidableEq, Repr

/-- The error value of a call that returned: nil (`none`) after `ok`. -/
def Result.toError {α : Type} : Result α → Option GoError
  | .error e => some e
  | _ => none

/-! ## sort.Slice -/

/-- The signature of `sort.Slice` on a `[]constantValue`: the `less` function
and the slice, giving the slice after the call. -/
abbrev SortSlice := (constantValue → constantValue → Bool) → List constantValue → List constantValue

/-- A strict weak ordering, which `sort.Slice` asks of `less`. -/
def StrictWeak {α : Type} (less : α → α → Bool) : Prop :=
  (∀ a b, less a b = true → less b a = false) ∧
  (∀ a b c, less a b = false → less b c = false → less a c = false)

/-- The contract of `sort.Slice`: the slice is rearranged, and afterwards no
element is less than one that stands before it. -/
def SortSlice.Conforms (s : SortSlice) : Prop :=
  ∀ less l, StrictWeak less →
    (s less l).Perm l ∧ (s less l).Pairwise (fun a b => less b a = false)

/-- One pass of the inner loop of `insertionSortLessFunc`: `x` moves down past
every element it is less than.  The sorted prefix is held last element first. -/
def insertDown {α : Type} (less : α → α → Bool) (x : α) : List α → List α
  | [] => [x]
  | y :: rest => if less x y then y :: insertDown less x rest else x :: y :: rest

/-- The `insertionSortLessFunc` of package sort, which `sort.Slice` runs on a
slice of fewer than twelve elements. -/
def insertionSortFunc {α : Type} (less : α → α → Bool) (l : List α) : List α :=
  (l.foldl (fun sortedRev x => insertDown less x sortedRev) []).reverse

/-! ## generator.go: extract -/

/-- The first loop of `extract`: the first non-nil object, in the order of the
iteration, whose type is a `*types.Named` and whose name is `typeName`. -/
def findDef (typeName : String) : List (Option Object) → Option Object
  | [] => none
  | none :: rest => findDef typeName rest
  | some cur :: rest =>
    if ¬ cur.Type.isNamed then findDef typeName rest
    else if cur.Name = typeName then some cur
    else findDef typeName rest

/-- The second loop of `extract`: the constants whose type prints as
`fullName`, appended in the order of the iteration. -/
def collectValues (fullName : String) : List (Option Object) → List constantValue
  | [] => []
  | none :: rest => collectValues fullName rest
  | some cur :: rest =>
    if cur.Type.String ≠ fullName then collectValues fullName rest
    else
      match cur with
      | .Const name _ val => ⟨name, val, cur⟩ :: collectValues fullName rest
      | _ => collectValues fullName rest

/-- The `less` closure handed to `sort.Slice` by `extract`. -/
def lessByName (a b : constantValue) : Bool := stringLess a.Name b.Name

/-- `func (g *generator) extract(pkg *packageInfo, typeName string)`.
`iter1` and `iter2` are the orders in which the first and the second `range`
over `pkg.defs` visit the map.  The unchecked assertion
`.Underlying().(*types.Basic)` panics on any other type. -/
def extract (sortSlice : SortSlice) (pkg : packageInfo) (typeName : String)
    (iter1 iter2 : List (Option Object)) : Result constants :=
  match findDef typeName iter1 with
  | none => .error (.couldNotFindDef typeName)
  | some d =>
    let fullName := pkg.fullName ++ "." ++ typeName
    let finish (empty : String) (k : kind) : Result constants :=
      .ok { FullName := fullName, Name := typeName, Empty := empty, Kind := k,
            Values := sortSlice lessByName (collectValues fullName iter2) }
    match d.Type.Underlying with
    | .Basic _ underlying =>
      if underlying &&& IsInteger ≠ 0 then finish "0" intKind
      else if underlying &&& IsString ≠ 0 then finish "\"\"" stringKind
      else .error (.notStringOrInteger typeName)
    | _ => .panic "interface conversion: types.Type is not *types.Basic"

/-! ## templates.go: the generated switches

The templates are text.  What is embedded is the statement each fragment emits:
a `switch` with one case per constant, in the order of the `range`, and a
`default`.  Expressions keep the shape the template gives them: an identifier
(`.Name`), a quoted string (`printf "%q"`), or a token copied verbatim
(`.Value`, `.Constants.Empty`). -/

/-- Modelled from the spec: the type `FlagMode` of the field `switches.FlagMode`,
whose declaration is not among the sources: flag-mode is one of none, value,
get. -/
inductive FlagMode where
  | none
  | val
  | get
deriving DecidableEq, Repr

/-- The constant `flagVal`, the default that `Command.Flags` sets. -/
def flagVal : FlagMode := .val

/-- The struct `switches`, with the fields that `Command.Flags` binds. -/
structure switches where
  WithName : Bool
  WithLookup : Bool
  FlagMode : FlagMode
  WithIsValid : Bool
  WithString : Bool
  WithMarshal : Bool
  WithValuesString : Bool
  WithValues : Bool
deriving DecidableEq, Repr

/-- `type templateData struct` of templates.go; `Type_` is its field `Type`. -/
structure templateData where
  switches : switches
  Receiver : String
  Type_ : String
  Constants : constants
  Unknown : String
deriving DecidableEq, Repr

/-- Modelled from the spec: the method `NameOrder` of `constants`, whose
declaration is not among the sources: the constants sorted lexicographically on
`Name` (byte-wise comparison). -/
def constants.NameOrder (cs : constants) : List constantValue :=
  insertionSortFunc lessByName cs.Values

/-- An expression of the enum type in generated code. -/
inductive ValExpr where
  /-- The identifier of a constant, from `.Name`. -/
  | ident (name : String)
  /-- A literal token copied verbatim, from `.Constants.Empty`. -/
  | literal (text : String)
deriving DecidableEq, Repr

/-- An expression of type string (or `[]byte`) in generated code. -/
inductive StrExpr where
  /-- The output of `printf "%q" s`: a string literal whose value is `s`. -/
  | quoted (s : String)
  /-- A literal token copied verbatim, from `.Value`. -/
  | literal (text : String)
  /-- A conversion of a value of the enum type, as in `[]byte(Name)`. -/
  | ofVal (e : ValExpr)
deriving DecidableEq, Repr

/-- One `case` of a generated switch: its expression list and what its body
returns or assigns. -/
structure Case (L R : Type) where
  labels : List L
  body : R
deriving DecidableEq, Repr

/-- A generated `switch`: the cases in the order they are emitted, and
`default`. -/
structure SwitchStmt (L R : Type) where
  cases : List (Case L R)
  dflt : R
deriving DecidableEq, Repr

/-- The switch of `Name()` over the given constants. -/
def nameSwitch (vals : List constantValue) : SwitchStmt ValExpr StrExpr :=
  ⟨vals.map (fun c => ⟨[.ident c.Name], .quoted c.Name⟩), .quoted ""⟩

/-- The switch of `Lookup(name)` over the given constants; the body returns
the expression and the flag `ok`. -/
def lookupSwitch (vals : List constantValue) (empty : String) :
    SwitchStmt StrExpr (ValExpr × Bool) :=
  ⟨vals.map (fun c => ⟨[.quoted c.Name], (.ident c.Name, true)⟩), (.literal empty, false)⟩

/-- `genWithName` of templates.go: emitted if `.WithName`, ranging over
`.Constants.NameOrder`. -/
def genWithName (d : templateData) : Option (SwitchStmt ValExpr StrExpr) :=
  if d.switches.WithName then some (nameSwitch d.Constants.NameOrder) else none

/-- `genWithLookup` of templates.go: emitted if `.WithLookup`, ranging over
`.Constants.NameOrder`. -/
def genWithLookup (d : templateData) : Option (SwitchStmt StrExpr (ValExpr × Bool)) :=
  if d.switches.WithLookup then some (lookupSwitch d.Constants.NameOrder d.Constants.Empty)
  else none

/-- The `Name()` function of `genTplText` in generator.go, ranging over
`.Constants.Values`. -/
def genTplTextName (cs : constants) : SwitchStmt ValExpr StrExpr :=
  nameSwitch cs.Values

/-- The `Lookup()` function of `genTplText` in generator.go, ranging over
`.Constants.Values`. -/
def genTplTextLookup (cs : constants) : SwitchStmt StrExpr (ValExpr × Bool) :=
  lookupSwitch cs.Values cs.Empty

/-- The expression after `switch` in a generated `UnmarshalText`. -/
inductive TagExpr where
  /-- The conversion `string(receiver)`. -/
  | stringOfReceiver
  /-- The conversion `string(text)` of the argument. -/
  | stringOfText
deriving DecidableEq, Repr

/-- The two methods of a text-marshal fragment.  `MarshalText` switches on the
receiver and returns bytes, its `default` returns an error (`none`).
`UnmarshalText` assigns a constant to the receiver, its `default` returns an
error (`none`); `unmarshalTag` is the expression its switch is on. -/
structure MarshalPair where
  marshal : SwitchStmt ValExpr (Option StrExpr)
  unmarshalTag : TagExpr
  unmarshal : SwitchStmt StrExpr (Option ValExpr)
deriving DecidableEq, Repr

/-- `genIntWithMarshal` of templates.go: emitted if `.WithMarshal`.
`MarshalText` returns `[]byte(printf "%q" .Value)`; `UnmarshalText` is
`switch string(receiver)` with `case printf "%q" .Name, printf "%q" .Value`. -/
def genIntWithMarshal (d : templateData) : Option MarshalPair :=
  if d.switches.WithMarshal then
    some ⟨⟨d.Constants.NameOrder.map (fun c => ⟨[.ident c.Name], some (.quoted c.Value)⟩), none⟩,
          .stringOfReceiver,
          ⟨d.Constants.NameOrder.map
            (fun c => ⟨[.quoted c.Name, .quoted c.Value], some (.ident c.Name)⟩), none⟩⟩
  else none

/-- `genStrWithMarshal` of templates.go: emitted if `.WithMarshal`.
`MarshalText` returns `[]byte(.Name)`; `UnmarshalText` is
`switch string(receiver)` with `case .Value`. -/
def genStrWithMarshal (d : templateData) : Option MarshalPair :=
  if d.switches.WithMarshal then
    some ⟨⟨d.Constants.NameOrder.map
            (fun c => ⟨[.ident c.Name], some (.ofVal (.ident c.Name))⟩), none⟩,
          .stringOfReceiver,
          ⟨d.Constants.NameOrder.map (fun c => ⟨[.literal c.Value], some (.ident c.Name)⟩), none⟩⟩
  else none

/-- The marshal fragment that `generate` picks for the kind of the
descriptor. -/
def genMarshal (d : templateData) : Option MarshalPair :=
  if d.Constants.Kind = intKind then genIntWithMarshal d
  else if d.Constants.Kind = stringKind then genStrWithMarshal d
  else none

/-! ### Meaning of the generated code -/

/-- What the tokens of generated code denote in the package they are compiled
in.  `V` is the set of values of the enum type. -/
structure Interp (V : Type) where
  /-- The value of the constant an identifier names. -/
  ident : String → V
  /-- The value of a literal token, as a value of the enum type. -/
  literal : String → V
  /-- The contents of a string literal token. -/
  unquote : String → String
  /-- The conversion of a value of the enum type to string or `[]byte`. -/
  toStr : V → String

/-- The value of an expression of the enum type. -/
def Interp.evalV {V : Type} (I : Interp V) : ValExpr → V
  | .ident n => I.ident n
  | .literal t => I.literal t

/-- The value of an expression of type string. -/
def Interp.evalS {V : Type} (I : Interp V) : StrExpr → String
  | .quoted s => s
  | .literal t => I.unquote t
  | .ofVal e => I.toStr (I.evalV e)

/-- The interpretation of the package that declares the constants `vals`: an
identifier that is the `Name` of an entry denotes the value that the `Value`
of the entry spells (of the first such entry, if several share the name); any
other token is read as in `I`. -/
def Interp.declaring {V : Type} (I : Interp V) (vals : List constantValue) : Interp V :=
  ⟨fun n =>
     match vals.find? (fun c => decide (c.Name = n)) with
     | some c => I.literal c.Value
     | none => I.ident n,
   I.literal, I.unquote, I.toStr⟩

/-- A Go expression switch: the body of the first case, in source order, with
an expression equal to the tag; `default` if there is none. -/
def SwitchStmt.select {L R T : Type} [DecidableEq T] (sw : SwitchStmt L R) (eval : L → T)
    (tag : T) : R :=
  match sw.cases.find? (fun c => decide (tag ∈ c.labels.map eval)) with
  | some c => c.body
  | none => sw.dflt

/-- The generated `func (v T) Name() string`. -/
def runName {V : Type} [DecidableEq V] (I : Interp V) (sw : SwitchStmt ValExpr StrExpr)
    (v : V) : String :=
  I.evalS (sw.select I.evalV v)

/-- The generated `func (v T) Lookup(name string) (value T, ok bool)`. -/
def runLookup {V : Type} (I : Interp V) (sw : SwitchStmt StrExpr (ValExpr × Bool))
    (name : String) : V × Bool :=
  let r := sw.select I.evalS name
  (I.evalV r.1, r.2)

/-- The generated `func (v T) MarshalText() (text []byte, err error)`; `none`
is the error return. -/
def runMarshalText {V : Type} [DecidableEq V] (I : Interp V) (p : MarshalPair) (v : V) :
    Option String :=
  (p.marshal.select I.evalV v).map I.evalS

/-- The generated `func (v *T) UnmarshalText(text []byte) (err error)`, from the
receiver before the call and the text, to the receiver after a nil return;
`none` is the error return. -/
def runUnmarshalText {V : Type} (I : Interp V) (p : MarshalPair) (receiver : V)
    (text : String) : Option V :=
  let tag := match p.unmarshalTag with
    | .stringOfReceiver => I.toStr receiver
    | .stringOfText => text
  (p.unmarshal.select I.evalS tag).map I.evalV

/-! ## command.go and cmd/enumgen/main.go -/

/-- `type Command struct`. -/
structure Command where
  switches : switches
  tags : String
  pkg : String
  format : Bool
  out : String
deriving DecidableEq, Repr

/-- The pieces of a sequence of characters between the occurrences of `sep`. -/
def splitChars (sep : Char) : List Char → List (List Char)
  | [] => [[]]
  | c :: cs =>
    match splitChars sep cs with
    | [] => [[]]
    | piece :: pieces => if c = sep then [] :: piece :: pieces else (c :: piece) :: pieces

/-- `strings.Split(s, sep)` for a separator of one character. -/
def stringsSplit (s : String) (sep : Char) : List String :=
  (splitChars sep s.data).map String.mk

/-- `IsUsageError`: the assertion `err.(usageError)` on an error value, `none`
being nil. -/
def IsUsageError : Option GoError → Bool
  | some (.usageError _) => true
  | _ => false

/-- `os.IsNotExist`. -/
def IsNotExist : Option GoError → Bool
  | some (.notExist _) => true
  | _ => false

/-- `type generator struct`, with the fields `Command.Run` sets. -/
structure generator where
  buf : String
  switches : switches
  format : Bool
deriving DecidableEq, Repr

/-- The three parsed templates. -/
inductive Template where
  | genTpl
  | intTpl
  | strTpl
deriving DecidableEq, Repr

/-- A package as `packages.Load` returns it: `PkgPath`, `Name` and
`TypesInfo.Defs`. -/
structure LoadedPackage where
  PkgPath : String
  Name : String
  Defs : List (Option Object)
deriving DecidableEq, Repr

/-- What the program does to the outside, in order. -/
inductive Event where
  /-- A call of `packages.Load` with the build flags and the pattern. -/
  | load (buildFlags : List String) (pkgName : String)
  /-- A call of `Template.Execute`. -/
  | render (tpl : Template) (typeName : String)
  /-- A call of `imports.Process`. -/
  | format (fileName : String)
  /-- A call of `ioutil.ReadFile`. -/
  | read (path : String)
  /-- A call of `ioutil.WriteFile` with the path, the data and the mode bits. -/
  | write (path : String) (data : String) (perm : Nat)
deriving DecidableEq, Repr

/-- The collaborators of the command: the package loader, the iteration order
of the maps (numbered by `range` statement executed), `sort.Slice`, template
execution (the text it writes), `imports.Process`, the file system and the
parsing of the command line by package flag (`flagParse` gives the command as
`fs.Parse` leaves it, and either `fs.Args()` or the error of `fs.Parse`). -/
structure World where
  packagesLoad : List String → String → Result (List LoadedPackage)
  rangeDefs : Nat → List (Option Object) → List (Option Object)
  sortSlice : SortSlice
  execute : Template → templateData → Result String
  importsProcess : String → String → Result String
  readFile : String → String × Option GoError
  writeFile : String → String → Nat → Option GoError
  flagParse : List String → Command × Result (List String)

/-- A result together with the events of the call. -/
abbrev Traced (α : Type) := Result α × List Event

/-- `const preamble`. -/
def preamble : String :=
  "Code generated by 'github.com/shabbyrobe/go-enumgen'. DO NOT EDIT."

/-- `func (g *generator) parsePackage(pkgName string, tags []string)`. -/
def generator.parsePackage (w : World) (pkgName : String) (tags : List String) :
    Traced packageInfo :=
  let buildFlags := ["-tags=" ++ " ".intercalate tags]
  let ev := [Event.load buildFlags pkgName]
  match w.packagesLoad buildFlags pkgName with
  | .error e => (.error e, ev)
  | .panic m => (.panic m, ev)
  | .ok pkgs =>
    match pkgs with
    | [pkg] => (.ok ⟨pkg.PkgPath, pkg.Name, pkg.Defs⟩, ev)
    | _ => (.error (.packageNotFound pkgName), ev)

/-- `func (g *generator) generate(cns *constants) error`, giving the generator
after the call. -/
def generator.generate (w : World) (g : generator) (cns : constants) : Traced generator :=
  let data : templateData := ⟨g.switches, "v", cns.Name, cns, "<unknown>"⟩
  let ev1 := [Event.render .genTpl cns.Name]
  match w.execute .genTpl data with
  | .error e => (.error e, ev1)
  | .panic m => (.panic m, ev1)
  | .ok text1 =>
    let g1 : generator := ⟨g.buf ++ text1, g.switches, g.format⟩
    let second (tpl : Template) : Traced generator :=
      let ev2 := ev1 ++ [Event.render tpl cns.Name]
      match w.execute tpl data with
      | .error e => (.error e, ev2)
      | .panic m => (.panic m, ev2)
      | .ok text2 => (.ok ⟨g1.buf ++ text2, g.switches, g.format⟩, ev2)
    if cns.Kind = intKind then second .intTpl
    else if cns.Kind = stringKind then second .strTpl
    else (.error .unsupportedKind, ev1)

/-- `func (g *generator) Output(fileName string, pkgInfo *packageInfo)`. -/
def generator.Output (w : World) (g : generator) (fileName : String) (pkgInfo : packageInfo) :
    Traced String :=
  let bts := "// " ++ preamble ++ "\n\n" ++ ("package " ++ pkgInfo.name) ++ g.buf
  if g.format then
    match w.importsProcess fileName bts with
    | .error e => (.error e, [Event.format fileName])
    | .panic m => (.panic m, [Event.format fileName])
    | .ok formatted => (.ok formatted, [Event.format fileName])
  else (.ok bts, [])

/-- The loop `for _, typeName := range args` of `Command.Run`; `n` counts the
`range` statements over `pkg.defs` executed so far. -/
def runTypes (w : World) (pkg : packageInfo) : Nat → generator → List String → Traced generator
  | _, g, [] => (.ok g, [])
  | n, g, typeName :: rest =>
    match extract w.sortSlice pkg typeName (w.rangeDefs n pkg.defs) (w.rangeDefs (n + 1) pkg.defs) with
    | .error e => (.error e, [])
    | .panic m => (.panic m, [])
    | .ok cns =>
      match generator.generate w g cns with
      | (.error e, ev) => (.error e, ev)
      | (.panic m, ev) => (.panic m, ev)
      | (.ok g1, ev) =>
        let r := runTypes w pkg (n + 2) g1 rest
        (r.1, ev ++ r.2)

/-- The end of `Command.Run`, from `var write bool` on: `existing` and `err` are
what `ioutil.ReadFile` returned. -/
def writeIfChanged (w : World) (path : String) (out : String) (existing : String)
    (err : Option GoError) : Traced Unit :=
  let doWrite : Traced Unit :=
    match w.writeFile path out 0o644 with
    | none => (.ok (), [Event.write path out 0o644])
    | some e => (.error e, [Event.write path out 0o644])
  if IsNotExist err || err == none then doWrite
  else
    match err with
    | some e => (.error e, [])
    | none => if out ≠ existing then doWrite else (.ok (), [])

/-- `func (cmd *Command) Run(args ...string) error`. -/
def Command.Run (w : World) (cmd : Command) (args : List String) : Traced Unit :=
  if cmd.pkg = "" then (.error (.usageError "-pkg not set"), [])
  else if cmd.out = "" then (.error (.usageError "-out not set"), [])
  else
    let tags := stringsSplit cmd.tags ','
    let g : generator := ⟨"", cmd.switches, cmd.format⟩
    match generator.parsePackage w cmd.pkg tags with
    | (.error e, ev) => (.error e, ev)
    | (.panic m, ev) => (.panic m, ev)
    | (.ok pkg, ev) =>
      match runTypes w pkg 0 g args with
      | (.error e, ev1) => (.error e, ev ++ ev1)
      | (.panic m, ev1) => (.panic m, ev ++ ev1)
      | (.ok g1, ev1) =>
        match generator.Output w g1 cmd.out pkg with
        | (.error e, ev2) => (.error e, ev ++ ev1 ++ ev2)
        | (.panic m, ev2) => (.panic m, ev ++ ev1 ++ ev2)
        | (.ok out, ev2) =>
          let rd := w.readFile cmd.out
          let r := writeIfChanged w cmd.out out rd.1 rd.2
          (r.1, ev ++ ev1 ++ ev2 ++ [Event.read cmd.out] ++ r.2)

/-- `const Usage` of command.go. -/
def Usage : String :=
  "enumgen: turn a bag of constants into something a bit more useful\n" ++
  "\n" ++
  "Usage: enumgen [options] <input>...\n" ++
  "\n" ++
  "The <input> argument is a list of types contained in the current package, to which\n" ++
  "methods will be added.\n" ++
  "\n" ++
  "Things that are always generated:\n" ++
  "    func (t <T>) String() string\n" ++
  "\n" ++
  "    func (t <T>) IsValid() bool\n" ++
  "        Is the value in 't' a member of the set of constants?\n" ++
  "        \n" ++
  "    func (t <T>) Lookup(name string) (<T>, ok bool)\n" ++
  "        Find the constant for 'name'. 'ok' is false if not found.\n" ++
  "\n" ++
  "    var <T>Values = []T\x7b...\x7d\n" ++
  "        Slice containing all values for this enum, sorted by value (not name).\n" ++
  "\n" ++
  "If -textmarshal is passed:\n" ++
  "    func (t <T>)  MarshalText() (text []byte, err error)\n" ++
  "    func (t *<T>) UnmarshalText(text []byte) (err error)\n" ++
  "\n" ++
  "If -flag=(val|get) are passed (implements flag.Value):\n" ++
  "    func (t <T>) Set(s string) error\n" ++
  "\n" ++
  "If -flag=get is passed (implements flag.Getter):\n" ++
  "    func (t <T>) Get() interface\x7b\x7d\n" ++
  "\n" ++
  "If -strvalues is passed and the underlying type of your enum is a string:\n" ++
  "    func (t <T>) ValuesString() string\n" ++
  "        String of all constant values, separated by commas. This is useful for\n" ++
  "        things like flag help, where you may want to show the list of possible\n" ++
  "        options.\n"

/-- `func (cmd *Command) Usage() string`. -/
def Command.Usage (_cmd : Command) : String := Enumgen.Usage

/-- The streams that main.go writes to. -/
inductive Stream where
  | stdout
  | stderr
deriving DecidableEq, Repr

/-- What main.go writes, in order.  What package flag writes by itself while
it parses the command line is not recorded. -/
inductive Printed where
  /-- `fmt.Println(text)`: the text and a newline, on standard output. -/
  | line (text : String)
  /-- `fmt.Println("error:", err)`, on standard output. -/
  | error (err : GoError)
  /-- `fs.PrintDefaults()`: the defaults of the flags, written to
  `fs.Output()`, which is standard error for the `&flag.FlagSet` of `run`. -/
  | defaults
deriving DecidableEq, Repr

/-- The stream an output goes to. -/
def Printed.stream : Printed → Stream
  | .line _ => .stdout
  | .error _ => .stdout
  | .defaults => .stderr

/-- `func help(bmc *enumgen.Command, fs *flag.FlagSet)`. -/
def help (bmc : Command) : List Printed := [.line bmc.Usage, .line "Flags:", .defaults]

/-- `func run() error` of main.go: the error it returns (`ok` for nil), the
events and what it wrote.  `osArgs` is `os.Args[1:]`. -/
def run (w : World) (osArgs : List String) : Result Unit × List Event × List Printed :=
  match w.flagParse osArgs with
  | (bmc, .error e) => if e = .errHelp then (.ok (), [], help bmc) else (.error e, [], [])
  | (_, .panic m) => (.panic m, [], [])
  | (bmc, .ok args) =>
    match Command.Run w bmc args with
    | (.panic m, ev) => (.panic m, ev, [])
    | (.ok (), ev) => (.ok (), ev, [])
    | (.error err, ev) =>
      if IsUsageError (some err) then (.ok (), ev, help bmc ++ [.line "", .error err])
      else (.error err, ev, [])

/-! ## Vocabulary of the statements -/

/-- What the first loop of `extract` accepts: an object whose type is a
`*types.Named` and whose name is `typeName`. -/
def isCandidate (typeName : String) (cur : Object) : Bool :=
  cur.Type.isNamed && decide (cur.Name = typeName)

/-- The entry of `Values` for a definition that is a constant whose type prints
as `fullName`; nothing for any other definition. -/
def declaredConstant (fullName : String) : Option Object → Option constantValue
  | some (.Const name typ val) =>
    if typ.String = fullName then some ⟨name, val, .Const name typ val⟩ else none
  | _ => none

/-! ## Example packages -/

/-- The type `int`. -/
def intType : GoType := .Basic "int" IsInteger
/-- The type `string`. -/
def stringType : GoType := .Basic "string" IsString
/-- The type `float64`. -/
def float64Type : GoType := .Basic "float64" IsFloat

/-- The type of `type Color int` in package `example.com/paint`. -/
def colorType : GoType := .Named (some "example.com/paint") "Color" intType

/-- The definitions of
`package paint; type Color int; const (Red Color = iota; Green; Blue);
var current Color; func main()`, with the nil entry of the package clause. -/
def paintDefs : List (Option Object) :=
  [none, some (.TypeName "Color" colorType), some (.Const "Red" colorType "0"),
   some (.Const "Green" colorType "1"), some (.Const "Blue" colorType "2"),
   some (.Var "current" colorType), some (.Func "main" (.Other "func()"))]

/-- The package of `paintDefs`. -/
def paintPkg : packageInfo := ⟨"example.com/paint", "paint", paintDefs⟩

/-- The package `package paint; type Color int`, which declares no constant. -/
def bareDefs : List (Option Object) := [none, some (.TypeName "Color" colorType)]

/-- The package of `bareDefs`. -/
def barePkg : packageInfo := ⟨"example.com/paint", "paint", bareDefs⟩

/-- The package `package paint; type Palette []int; type Ratio float64`. -/
def shapesPkg : packageInfo :=
  ⟨"example.com/paint", "paint",
   [none, some (.TypeName "Palette" (.Named (some "example.com/paint") "Palette" (.Other "[]int"))),
    some (.TypeName "Ratio" (.Named (some "example.com/paint") "Ratio" float64Type))]⟩

/-- The definitions of
`package paint; type Color int; const (_ Color = iota; Red; _)`: the blank
identifier is recorded in `Defs` like any other. -/
def blankDefs : List (Option Object) :=
  [none, some (.TypeName "Color" colorType), some (.Const "_" colorType "0"),
   some (.Const "Red" colorType "1"), some (.Const "_" colorType "2")]

/-- The package of `blankDefs`. -/
def blankPkg : packageInfo := ⟨"example.com/paint", "paint", blankDefs⟩

/-- The type of a `type Color string` declared inside a function of package
`example.com/paint`. -/
def localColorType : GoType := .Named (some "example.com/paint") "Color" stringType

/-- The definitions of
`package paint; type Color int; func f() \x7b type Color string \x7d`. -/
def shadowDefs : List (Option Object) :=
  [some (.TypeName "Color" colorType), some (.TypeName "Color" localColorType)]

/-- The package of `shadowDefs`. -/
def shadowPkg : packageInfo := ⟨"example.com/paint", "paint", shadowDefs⟩

/-- The definitions of `package paint; type Color int`, with a function that
declares `const X Color = 1` and another that declares `const X Color = 2`. -/
def twiceDefs : List (Option Object) :=
  [some (.TypeName "Color" colorType), some (.Const "X" colorType "1"),
   some (.Const "X" colorType "2")]

/-- The package of `twiceDefs`. -/
def twicePkg : packageInfo := ⟨"example.com/paint", "paint", twiceDefs⟩

/-- The descriptor of `Color` in `paintPkg`. -/
def paintColors : constants :=
  ⟨"example.com/paint.Color", "Color", "0", intKind,
   [⟨"Blue", "2", .Const "Blue" colorType "2"⟩, ⟨"Green", "1", .Const "Green" colorType "1"⟩,
    ⟨"Red", "0", .Const "Red" colorType "0"⟩]⟩

/-- The template data that `generate` builds for `paintColors` when every
boolean switch but `-strvalues` is on. -/
def paintData : templateData :=
  ⟨⟨true, true, flagVal, true, true, true, false, true⟩, "v", "Color", paintColors, "<unknown>"⟩

/-- The number that a sequence of decimal digits spells, after `acc`. -/
def digitsValue : List Char → Nat → Nat
  | [], acc => acc
  | c :: cs, acc => digitsValue cs (10 * acc + (c.toNat - 48))

/-- The integer that a decimal literal token spells. -/
def readDecimal (t : String) : Int :=
  match t.data with
  | '-' :: ds => -((digitsValue ds 0 : Nat) : Int)
  | ds => ((digitsValue ds 0 : Nat) : Int)

/-- The descriptor that `extract` returns for `Color` in `blankPkg`. -/
def blankColors : constants :=
  ⟨"example.com/paint.Color", "Color", "0", intKind,
   [⟨"Red", "1", .Const "Red" colorType "1"⟩, ⟨"_", "0", .Const "_" colorType "0"⟩,
    ⟨"_", "2", .Const "_" colorType "2"⟩]⟩

/-- The template data that `generate` builds for `blankColors` under the
default switches. -/
def blankData : templateData :=
  ⟨⟨true, true, flagVal, true, true, false, false, true⟩, "v", "Color", blankColors, "<unknown>"⟩

/-- The meaning of the tokens in package paint: `Red`, `Green` and `Blue` are
0, 1 and 2, a literal token is the number it spells, and `conv` is the
conversion of a `Color` to string. -/
def paintInterp (conv : Int → String) : Interp Int :=
  ⟨fun n => if n = "Red" then 0 else if n = "Green" then 1 else if n = "Blue" then 2 else 0,
   readDecimal, fun t => t, conv⟩

/-- The switches that `Command.Flags` sets by default. -/
def paintSwitches : switches := ⟨true, true, flagVal, true, true, false, false, true⟩

/-- The command after `enumgen Color` has been parsed: the defaults of
`Command.Flags`. -/
def paintCmd : Command := ⟨paintSwitches, "", ".", true, "enum_gen.go"⟩

/-- The command after `enumgen -pkg= Color` has been parsed. -/
def noPkgCmd : Command := ⟨paintSwitches, "", "", true, "enum_gen.go"⟩

/-- The command after `enumgen -out= Color` has been parsed. -/
def noOutCmd : Command := ⟨paintSwitches, "", ".", true, ""⟩

/-- The bytes that `Output` assembles for `Color` in `paintWorld`. -/
def paintOut : String :=
  "// Code generated by 'github.com/shabbyrobe/go-enumgen'. DO NOT EDIT.\n\npackage paint" ++
    "\nfunc (v Color) Name() string\n" ++ "\nfunc (v Color) String() string\n"

/-- A world for package paint: the loader finds the package, a map is visited
in the order of its list, every template writes one line, formatting changes
nothing, `ioutil.ReadFile` returns `file` for every path, `ioutil.WriteFile`
succeeds, and the command line parses to `cmd` with the arguments left as
they are. -/
def paintWorld (cmd : Command) (file : String × Option GoError) : World :=
  ⟨fun _ _ => .ok [⟨"example.com/paint", "paint", paintDefs⟩],
   fun _ l => l,
   fun less l => insertionSortFunc less l,
   fun tpl d =>
     match tpl with
     | .genTpl => .ok ("\nfunc (" ++ d.Receiver ++ " " ++ d.Type_ ++ ") Name() string\n")
     | _ => .ok ("\nfunc (" ++ d.Receiver ++ " " ++ d.Type_ ++ ") String() string\n"),
   fun _ bts => .ok bts,
   fun _ => file,
   fun _ _ _ => none,
   fun osArgs => (cmd, .ok osArgs)⟩

/-! ## Properties of the string order -/

theorem lexLess_asymm : ∀ a b : List Nat, lexLess a b = true → lexLess b a = false
  | _, [], h => by simp [lexLess] at h
  | [], _ :: _, _ => by simp [lexLess]
  | a :: as, b :: bs, h => by
    simp only [lexLess] at h ⊢
    by_cases h1 : a < b
    · have h2 : ¬ b < a := by omega
      simp [h2, h1]
    · by_cases h2 : b < a
      · simp [h1, h2] at h
      · simp only [h1, h2, if_false] at h ⊢
        exact lexLess_asymm as bs h

theorem lexLess_negTrans : ∀ a b c : List Nat,
    lexLess a b = false → lexLess b c = false → lexLess a c = false
  | _, _, [], _, _ => by simp [lexLess]
  | _, [], _ :: _, _, h2 => by simp [lexLess] at h2
  | [], _ :: _, _ :: _, h1, _ => by simp [lexLess] at h1
  | a :: as, b :: bs, c :: cs, h1, h2 => by
    simp only [lexLess] at h1 h2 ⊢
    by_cases hab : a < b
    · simp [hab] at h1
    · by_cases hbc : b < c
      · simp [hbc] at h2
      · simp only [hab, hbc, if_false] at h1 h2
        by_cases hba : b < a
        · have hac : ¬ a < c := by omega
          have hca : c < a := by omega
          simp [hac, hca]
        · by_cases hcb : c < b
          · have hac : ¬ a < c := by omega
            have hca : c < a := by omega
            simp [hac, hca]
          · have hac : ¬ a < c := by omega
            have hca : ¬ c < a := by omega
            simp only [hba, hcb, if_false] at h1 h2
            simp only [hac, hca, if_false]
            exact lexLess_negTrans as bs cs h1 h2

theorem lexLess_eq_of_not : ∀ a b : List Nat,
    lexLess a b = false → lexLess b a = false → a = b
  | [], [], _, _ => rfl
  | [], _ :: _, h, _ => by simp [lexLess] at h
  | _ :: _, [], _, h => by simp [lexLess] at h
  | a :: as, b :: bs, h1, h2 => by
    simp only [lexLess] at h1 h2
    by_cases hab : a < b
    · simp [hab] at h1
    · by_cases hba : b < a
      · simp [hba] at h2
      · simp only [hab, hba, if_false] at h1 h2
        have e : a = b := by omega
        rw [e, lexLess_eq_of_not as bs h1 h2]

theorem charToNat_injective : Function.Injective Char.toNat := by
  intro a b h
  apply Char.ext
  apply UInt32.ext
  exact h

theorem stringLess_asymm (a b : String) (h : stringLess a b = true) : stringLess b a = false :=
  lexLess_asymm _ _ h

theorem stringLess_negTrans (a b c : String) (h1 : stringLess a b = false)
    (h2 : stringLess b c = false) : stringLess a c = false :=
  lexLess_negTrans _ _ _ h1 h2

theorem stringLess_irrefl (a : String) : stringLess a a = false := by
  cases h : stringLess a a
  · rfl
  · have := stringLess_asymm a a h
    rw [h] at this
    exact this

theorem stringLess_eq_of_not (a b : String) (h1 : stringLess a b = false)
    (h2 : stringLess b a = false) : a = b := by
  apply String.ext
  exact List.map_injective_iff.mpr charToNat_injective (lexLess_eq_of_not _ _ h1 h2)

theorem lessByName_strictWeak : StrictWeak lessByName :=
  ⟨fun a b h => stringLess_asymm a.Name b.Name h,
   fun a b c h1 h2 => stringLess_negTrans a.Name b.Name c.Name h1 h2⟩

/-! ## Properties of the insertion sort -/

theorem insertDown_perm {α : Type} (less : α → α → Bool) (x : α) :
    ∀ l : List α, (insertDown less x l).Perm (x :: l)
  | [] => List.Perm.refl _
  | y :: rest => by
    unfold insertDown
    split
    · exact ((insertDown_perm less x rest).cons y).trans (List.Perm.swap x y rest)
    · exact List.Perm.refl _

theorem foldl_insertDown_perm {α : Type} (less : α → α → Bool) :
    ∀ (l acc : List α),
      (l.foldl (fun sortedRev x => insertDown less x sortedRev) acc).Perm (l ++ acc)
  | [], acc => List.Perm.refl _
  | x :: l, acc => by
    simp only [List.foldl_cons]
    refine (foldl_insertDown_perm less l _).trans ?_
    refine ((insertDown_perm less x acc).append_left l).trans ?_
    simp

theorem insertionSortFunc_perm {α : Type} (less : α → α → Bool) (l : List α) :
    (insertionSortFunc less l).Perm l := by
  unfold insertionSortFunc
  refine (List.reverse_perm _).trans ?_
  simpa using foldl_insertDown_perm less l []

theorem insertDown_pairwise {α : Type} (less : α → α → Bool) (hw : StrictWeak less) (x : α) :
    ∀ l : List α, l.Pairwise (fun a b => less a b = false) →
      (insertDown less x l).Pairwise (fun a b => less a b = false)
  | [], _ => by simp [insertDown]
  | y :: rest, h => by
    unfold insertDown
    have hy := List.pairwise_cons.mp h
    split
    · rename_i hxy
      refine List.pairwise_cons.mpr ⟨?_, insertDown_pairwise less hw x rest hy.2⟩
      intro z hz
      rcases (List.Perm.mem_iff (insertDown_perm less x rest)).mp hz with hz1
      rcases List.mem_cons.mp hz1 with rfl | hz2
      · exact hw.1 _ _ hxy
      · exact hy.1 z hz2
    · rename_i hxy
      have hxy2 : less x y = false := by simpa using hxy
      refine List.pairwise_cons.mpr ⟨?_, h⟩
      intro z hz
      rcases List.mem_cons.mp hz with rfl | hz2
      · exact hxy2
      · exact hw.2 _ _ _ hxy2 (hy.1 z hz2)

theorem foldl_insertDown_pairwise {α : Type} (less : α → α → Bool) (hw : StrictWeak less) :
    ∀ (l acc : List α), acc.Pairwise (fun a b => less a b = false) →
      (l.foldl (fun sortedRev x => insertDown less x sortedRev) acc).Pairwise
        (fun a b => less a b = false)
  | [], _, h => h
  | x :: l, acc, h => by
    simp only [List.foldl_cons]
    exact foldl_insertDown_pairwise less hw l _ (insertDown_pairwise less hw x acc h)

theorem insertionSortFunc_sorted {α : Type} (less : α → α → Bool) (hw : StrictWeak less)
    (l : List α) : (insertionSortFunc less l).Pairwise (fun a b => less b a = false) := by
  unfold insertionSortFunc
  rw [List.pairwise_reverse]
  exact foldl_insertDown_pairwise less hw l [] List.Pairwise.nil

theorem insertionSortFunc_conforms :
    SortSlice.Conforms (fun less l => insertionSortFunc less l) :=
  fun less l hw => ⟨insertionSortFunc_perm less l, insertionSortFunc_sorted less hw l⟩

/-! ## The loops of extract -/

theorem findDef_cons_some (typeName : String) (cur : Object) (rest : List (Option Object)) :
    findDef typeName (some cur :: rest) =
      if isCandidate typeName cur = true then some cur else findDef typeName rest := by
  simp only [findDef, isCandidate]
  by_cases h : cur.Type.isNamed = true <;> by_cases h2 : cur.Name = typeName <;> simp [h, h2]

theorem findDef_eq_none_iff (typeName : String) :
    ∀ l : List (Option Object),
      findDef typeName l = none ↔ ∀ cur, some cur ∈ l → isCandidate typeName cur = false
  | [] => by simp [findDef]
  | none :: rest => by
    simp [findDef, findDef_eq_none_iff typeName rest]
  | some c :: rest => by
    rw [findDef_cons_some]
    by_cases hc : isCandidate typeName c = true
    · rw [if_pos hc]
      constructor
      · intro h
        cases h
      · intro h
        have := h c (List.mem_cons_self _ _)
        rw [hc] at this
        cases this
    · have hc2 : isCandidate typeName c = false := by simpa using hc
      rw [if_neg hc, findDef_eq_none_iff typeName rest]
      constructor
      · intro h cur hcur
        rcases List.mem_cons.mp hcur with e | e
        · cases e
          exact hc2
        · exact h cur e
      · intro h cur hcur
        exact h cur (List.mem_cons_of_mem _ hcur)

theorem findDef_some (typeName : String) :
    ∀ (l : List (Option Object)) (d : Object),
      findDef typeName l = some d → some d ∈ l ∧ isCandidate typeName d = true
  | [], d, h => by simp [findDef] at h
  | none :: rest, d, h => by
    simp only [findDef] at h
    have := findDef_some typeName rest d h
    exact ⟨List.mem_cons_of_mem _ this.1, this.2⟩
  | some c :: rest, d, h => by
    rw [findDef_cons_some] at h
    by_cases hc : isCandidate typeName c = true
    · rw [if_pos hc] at h
      cases h
      exact ⟨List.mem_cons_self _ _, hc⟩
    · rw [if_neg hc] at h
      have := findDef_some typeName rest d h
      exact ⟨List.mem_cons_of_mem _ this.1, this.2⟩

theorem collectValues_eq_filterMap (fullName : String) :
    ∀ l : List (Option Object),
      collectValues fullName l = l.filterMap (declaredConstant fullName)
  | [] => rfl
  | none :: rest => by
    simp [collectValues, declaredConstant, collectValues_eq_filterMap fullName rest]
  | some c :: rest => by
    have ih := collectValues_eq_filterMap fullName rest
    cases c <;> simp [collectValues, declaredConstant, Object.Type, ih, List.filterMap_cons]
    split <;> simp_all

/-! ## extract -/

theorem extract_of_findDef_none (s : SortSlice) (pkg : packageInfo) (typeName : String)
    (iter1 iter2 : List (Option Object)) (h : findDef typeName iter1 = none) :
    extract s pkg typeName iter1 iter2 = .error (.couldNotFindDef typeName) := by
  unfold extract
  rw [h]

theorem extract_of_findDef_some (s : SortSlice) (pkg : packageInfo) (typeName : String)
    (iter1 iter2 : List (Option Object)) (d : Object) (h : findDef typeName iter1 = some d) :
    extract s pkg typeName iter1 iter2 =
      match d.Type.Underlying with
      | .Basic _ underlying =>
        if underlying &&& IsInteger ≠ 0 then
          .ok ⟨pkg.fullName ++ "." ++ typeName, typeName, "0", intKind,
               s lessByName (collectValues (pkg.fullName ++ "." ++ typeName) iter2)⟩
        else if underlying &&& IsString ≠ 0 then
          .ok ⟨pkg.fullName ++ "." ++ typeName, typeName, "\"\"", stringKind,
               s lessByName (collectValues (pkg.fullName ++ "." ++ typeName) iter2)⟩
        else .error (.notStringOrInteger typeName)
      | _ => .panic "interface conversion: types.Type is not *types.Basic" := by
  unfold extract
  rw [h]

theorem extract_ok_values (s : SortSlice) (pkg : packageInfo) (typeName : String)
    (iter1 iter2 : List (Option Object)) (cs : constants)
    (h : extract s pkg typeName iter1 iter2 = .ok cs) :
    cs.Values = s lessByName (collectValues (pkg.fullName ++ "." ++ typeName) iter2) := by
  cases hd : findDef typeName iter1 with
  | none =>
    rw [extract_of_findDef_none s pkg typeName iter1 iter2 hd] at h
    cases h
  | some d =>
    rw [extract_of_findDef_some s pkg typeName iter1 iter2 d hd] at h
    split at h
    · split at h
      · cases h
        rfl
      · split at h
        · cases h
          rfl
        · cases h
    · cases h

theorem extract_ne_couldNotFindDef (s : SortSlice) (pkg : packageInfo) (typeName : String)
    (iter1 iter2 : List (Option Object)) (d : Object) (hd : findDef typeName iter1 = some d) :
    extract s pkg typeName iter1 iter2 ≠ .error (.couldNotFindDef typeName) := by
  rw [extract_of_findDef_some s pkg typeName iter1 iter2 d hd]
  intro h
  split at h
  · split at h
    · cases h
    · split at h
      · cases h
      · cases h
  · cases h

theorem collectValues_perm (fullName : String) (l defs : List (Option Object))
    (h : l.Perm defs) :
    (collectValues fullName l).Perm (defs.filterMap (declaredConstant fullName)) := by
  rw [collectValues_eq_filterMap]
  exact h.filterMap _

theorem mem_filterMap_declaredConstant (fullName : String) (defs : List (Option Object))
    (cv : constantValue) :
    cv ∈ defs.filterMap (declaredConstant fullName) ↔
      ∃ name typ val, some (Object.Const name typ val) ∈ defs ∧ typ.String = fullName ∧
        cv = ⟨name, val, .Const name typ val⟩ := by
  rw [List.mem_filterMap]
  constructor
  · rintro ⟨o, ho, hcv⟩
    cases o with
    | none => simp [declaredConstant] at hcv
    | some c =>
      cases c with
      | Const name typ val =>
        simp only [declaredConstant] at hcv
        split at hcv
        · rename_i ht
          cases hcv
          exact ⟨name, typ, val, ho, ht, rfl⟩
        · cases hcv
      | TypeName _ _ => simp [declaredConstant] at hcv
      | Var _ _ => simp [declaredConstant] at hcv
      | Func _ _ => simp [declaredConstant] at hcv
      | Label _ => simp [declaredConstant] at hcv
      | PkgName _ => simp [declaredConstant] at hcv
  · rintro ⟨name, typ, val, ho, ht, rfl⟩
    exact ⟨_, ho, by simp [declaredConstant, ht]⟩

theorem sorted_perm_unique (l1 l2 : List constantValue) (hp : l1.Perm l2)
    (hn : (l1.map (·.Name)).Nodup)
    (h1 : l1.Pairwise (fun a b => lessByName b a = false))
    (h2 : l2.Pairwise (fun a b => lessByName b a = false)) : l1 = l2 := by
  refine List.Perm.eq_of_sorted ?_ h1 h2 hp
  intro a b ha hb hab hba
  have hname : a.Name = b.Name := stringLess_eq_of_not a.Name b.Name hba hab
  exact List.inj_on_of_nodup_map hn ha (hp.mem_iff.mpr hb) hname

theorem strict_of_sorted_nodup (l : List constantValue)
    (hn : (l.map (·.Name)).Nodup)
    (h : l.Pairwise (fun a b => lessByName b a = false)) :
    l.Pairwise (fun a b => stringLess a.Name b.Name = true) := by
  have hne : l.Pairwise (fun a b => a.Name ≠ b.Name) := by
    have := hn
    unfold List.Nodup at this
    rwa [List.pairwise_map] at this
  refine (h.and hne).imp ?_
  intro a b hab
  cases hl : stringLess a.Name b.Name with
  | true => rfl
  | false => exact absurd (stringLess_eq_of_not a.Name b.Name hl hab.1) hab.2

/-! ## Claims about extract -/

/-- C2, as the code behaves: when the first loop finds a definition whose
underlying type is an integer or a string type and the package declares no
constant of the requested type, `extract` returns a descriptor, not an error,
and its `Values` list is empty. -/
theorem extract_no_constants_ok (s : SortSlice) (hs : s.Conforms) (pkg : packageInfo)
    (typeName : String) (iter1 iter2 : List (Option Object)) (h2 : iter2.Perm pkg.defs)
    (d : Object) (name : String) (info : Nat)
    (hd : findDef typeName iter1 = some d)
    (hu : d.Type.Underlying = .Basic name info)
    (hk : info &&& IsInteger ≠ 0 ∨ info &&& IsString ≠ 0)
    (hnone : pkg.defs.filterMap (declaredConstant (pkg.fullName ++ "." ++ typeName)) = []) :
    ∃ cs, extract s pkg typeName iter1 iter2 = .ok cs ∧ cs.Values = [] := by
  have hcol : collectValues (pkg.fullName ++ "." ++ typeName) iter2 = [] := by
    have := collectValues_perm (pkg.fullName ++ "." ++ typeName) iter2 pkg.defs h2
    rw [hnone] at this
    exact List.Perm.eq_nil this
  have hsort : s lessByName (collectValues (pkg.fullName ++ "." ++ typeName) iter2) = [] := by
    rw [hcol]
    exact List.Perm.eq_nil (hs lessByName [] lessByName_strictWeak).1
  rw [extract_of_findDef_some s pkg typeName iter1 iter2 d hd, hu]
  simp only [hsort]
  by_cases hi : info &&& IsInteger ≠ 0
  · exact ⟨_, by rw [if_pos hi], rfl⟩
  · have hstr : info &&& IsString ≠ 0 := hk.resolve_left hi
    exact ⟨_, by rw [if_neg hi, if_pos hstr], rfl⟩

/-- Witness of C2 (as the code behaves): the package that declares `type Color int`
and no constant. -/
theorem extract_no_constants_ok_witness :
    ∃ cs, extract (fun less l => insertionSortFunc less l) barePkg "Color" bareDefs bareDefs = .ok cs
      ∧ cs.Values = [] :=
  extract_no_constants_ok _ insertionSortFunc_conforms barePkg "Color" bareDefs bareDefs
    (List.Perm.refl _) (.TypeName "Color" colorType) "int" IsInteger (by decide) (by decide)
    (Or.inl (by decide)) (by decide)

/-- C2 as stated fails: for `package paint; type Color int`, which has no
constant of type `Color`, `extract` returns no error but the descriptor with an
empty `Values` list. -/
theorem extract_no_constants_counterexample :
    extract insertionSortFunc barePkg "Color" bareDefs bareDefs =
      .ok ⟨"example.com/paint.Color", "Color", "0", intKind, []⟩ := by
  decide

/-- C3 at the failing input: for `type Palette []int`, whose underlying type is
not a basic type, `extract` panics in the unchecked type assertion instead of
returning an error; for `type Ratio float64` it returns the error. -/
theorem extract_non_basic_panics :
    extract insertionSortFunc shapesPkg "Palette" shapesPkg.defs shapesPkg.defs =
        .panic "interface conversion: types.Type is not *types.Basic" ∧
    extract insertionSortFunc shapesPkg "Ratio" shapesPkg.defs shapesPkg.defs =
        .error (.notStringOrInteger "Ratio") := by
  decide

/-- C4, as the code behaves: `extract` returns the error "could not find def"
exactly when no non-nil definition of the package, of whatever kind (type name,
constant, variable, ...), has a named type and the name `typeName`. -/
theorem extract_could_not_find_def_iff (s : SortSlice) (pkg : packageInfo) (typeName : String)
    (iter1 iter2 : List (Option Object)) (h1 : iter1.Perm pkg.defs) :
    extract s pkg typeName iter1 iter2 = .error (.couldNotFindDef typeName) ↔
      ∀ cur, some cur ∈ pkg.defs → isCandidate typeName cur = false := by
  constructor
  · intro h cur hcur
    cases hd : findDef typeName iter1 with
    | none => exact (findDef_eq_none_iff typeName iter1).mp hd cur (h1.mem_iff.mpr hcur)
    | some d => exact absurd h (extract_ne_couldNotFindDef s pkg typeName iter1 iter2 d hd)
  · intro h
    apply extract_of_findDef_none
    exact (findDef_eq_none_iff typeName iter1).mpr (fun cur hcur => h cur (h1.mem_iff.mp hcur))

/-- Witness of C4 (as the code behaves): package paint defines nothing named
`Shade`. -/
theorem extract_could_not_find_def_iff_witness :
    extract insertionSortFunc paintPkg "Shade" paintDefs paintDefs =
        .error (.couldNotFindDef "Shade") ↔
      ∀ cur, some cur ∈ paintPkg.defs → isCandidate "Shade" cur = false :=
  extract_could_not_find_def_iff insertionSortFunc paintPkg "Shade" paintDefs paintDefs
    (List.Perm.refl _)

/-- C4 as stated fails: package paint has no type declaration named `Red`, only
the constant `Red` of the named type `Color`; `extract` takes the constant for
the definition and returns a descriptor instead of "could not find def". -/
theorem extract_constant_matches_counterexample :
    (∀ typ, some (Object.TypeName "Red" typ) ∉ paintPkg.defs) ∧
    extract insertionSortFunc paintPkg "Red" paintDefs paintDefs =
      .ok ⟨"example.com/paint.Red", "Red", "0", intKind, []⟩ := by
  refine ⟨?_, by decide⟩
  intro typ h
  simp [paintPkg, paintDefs] at h

/-- C5: whenever `extract` succeeds, `Values` is a permutation of the entries
(declared name, exact literal text) of the non-nil definitions that are
constants whose type prints as `pkg.fullName + "." + typeName`; so an entry is
in `Values` exactly when it is the entry of such a constant. -/
theorem extract_values_perm (s : SortSlice) (hs : s.Conforms) (pkg : packageInfo)
    (typeName : String) (iter1 iter2 : List (Option Object)) (h2 : iter2.Perm pkg.defs)
    (cs : constants) (h : extract s pkg typeName iter1 iter2 = .ok cs) :
    cs.Values.Perm (pkg.defs.filterMap (declaredConstant (pkg.fullName ++ "." ++ typeName))) ∧
    ∀ cv, cv ∈ cs.Values ↔
      ∃ name typ val, some (Object.Const name typ val) ∈ pkg.defs ∧
        typ.String = pkg.fullName ++ "." ++ typeName ∧ cv = ⟨name, val, .Const name typ val⟩ := by
  have hperm : cs.Values.Perm
      (pkg.defs.filterMap (declaredConstant (pkg.fullName ++ "." ++ typeName))) := by
    rw [extract_ok_values s pkg typeName iter1 iter2 cs h]
    exact (hs lessByName _ lessByName_strictWeak).1.trans (collectValues_perm _ iter2 pkg.defs h2)
  refine ⟨hperm, fun cv => ?_⟩
  rw [hperm.mem_iff]
  exact mem_filterMap_declaredConstant _ _ _

/-- Witness of C5: `Color` in package paint. -/
theorem extract_values_perm_witness :
    paintColors.Values.Perm
      (paintPkg.defs.filterMap (declaredConstant (paintPkg.fullName ++ "." ++ "Color"))) ∧
    ∀ cv, cv ∈ paintColors.Values ↔
      ∃ name typ val, some (Object.Const name typ val) ∈ paintPkg.defs ∧
        typ.String = paintPkg.fullName ++ "." ++ "Color" ∧
        cv = ⟨name, val, .Const name typ val⟩ :=
  extract_values_perm (fun less l => insertionSortFunc less l) insertionSortFunc_conforms paintPkg
    "Color" paintDefs paintDefs (List.Perm.refl _) paintColors (by decide)

/-- C6, as the code behaves: in the `Values` of a descriptor returned by
`extract` no entry has a name less than the name of an entry before it; and if
the constants of the requested type have pairwise distinct names, the names are
strictly increasing: for all `i < j`, `Values[i].Name < Values[j].Name`. -/
theorem extract_values_sorted (s : SortSlice) (hs : s.Conforms) (pkg : packageInfo)
    (typeName : String) (iter1 iter2 : List (Option Object)) (h2 : iter2.Perm pkg.defs)
    (cs : constants) (h : extract s pkg typeName iter1 iter2 = .ok cs) :
    (∀ (i j : Nat) (hi : i < cs.Values.length) (hj : j < cs.Values.length), i < j →
      stringLess cs.Values[j].Name cs.Values[i].Name = false) ∧
    (((pkg.defs.filterMap (declaredConstant (pkg.fullName ++ "." ++ typeName))).map
        (·.Name)).Nodup →
      ∀ (i j : Nat) (hi : i < cs.Values.length) (hj : j < cs.Values.length), i < j →
        stringLess cs.Values[i].Name cs.Values[j].Name = true) := by
  have hv := extract_ok_values s pkg typeName iter1 iter2 cs h
  have hc := hs lessByName (collectValues (pkg.fullName ++ "." ++ typeName) iter2)
    lessByName_strictWeak
  rw [← hv] at hc
  refine ⟨List.pairwise_iff_getElem.mp hc.2, fun hn => ?_⟩
  have hperm : cs.Values.Perm
      (pkg.defs.filterMap (declaredConstant (pkg.fullName ++ "." ++ typeName))) :=
    hc.1.trans (collectValues_perm _ iter2 pkg.defs h2)
  have hn2 : (cs.Values.map (·.Name)).Nodup := ((hperm.map (·.Name)).nodup_iff).mpr hn
  exact List.pairwise_iff_getElem.mp (strict_of_sorted_nodup cs.Values hn2 hc.2)

/-- Witness of C6 (as the code behaves): `Color` in package paint. -/
theorem extract_values_sorted_witness :
    (∀ (i j : Nat) (hi : i < paintColors.Values.length) (hj : j < paintColors.Values.length),
      i < j → stringLess paintColors.Values[j].Name paintColors.Values[i].Name = false) ∧
    (∀ (i j : Nat) (hi : i < paintColors.Values.length) (hj : j < paintColors.Values.length),
      i < j → stringLess paintColors.Values[i].Name paintColors.Values[j].Name = true) :=
  ⟨(extract_values_sorted (fun less l => insertionSortFunc less l) insertionSortFunc_conforms
      paintPkg "Color" paintDefs paintDefs (List.Perm.refl _) paintColors (by decide)).1,
   (extract_values_sorted (fun less l => insertionSortFunc less l) insertionSortFunc_conforms
      paintPkg "Color" paintDefs paintDefs (List.Perm.refl _) paintColors (by decide)).2
      (by decide)⟩

/-- C6 as stated fails: for `const (_ Color = iota; Red; _)` the descriptor has
the name `_` at the indices 1 and 2, and `Values[1].Name < Values[2].Name` is
false. -/
theorem extract_values_not_strict_counterexample :
    ∃ cs, extract insertionSortFunc blankPkg "Color" blankDefs blankDefs = .ok cs ∧
      ∃ (h1 : 1 < cs.Values.length) (h2 : 2 < cs.Values.length),
        stringLess cs.Values[1].Name cs.Values[2].Name = false :=
  ⟨⟨"example.com/paint.Color", "Color", "0", intKind,
      [⟨"Red", "1", .Const "Red" colorType "1"⟩, ⟨"_", "0", .Const "_" colorType "0"⟩,
       ⟨"_", "2", .Const "_" colorType "2"⟩]⟩,
    by decide, by decide, by decide, by decide⟩

/-- C10, as the code behaves: if all non-nil definitions with a named type and
the name `typeName` have the same underlying type (as when there is only one),
and the constants of the requested type have pairwise distinct names, then
`extract` returns the same result for any two orders in which the two loops
visit the definitions. -/
theorem extract_order_independent (s : SortSlice) (hs : s.Conforms) (pkg : packageInfo)
    (typeName : String) (a1 a2 b1 b2 : List (Option Object))
    (ha1 : a1.Perm pkg.defs) (ha2 : a2.Perm pkg.defs)
    (hb1 : b1.Perm pkg.defs) (hb2 : b2.Perm pkg.defs)
    (hdef : ∀ c1 c2, some c1 ∈ pkg.defs → some c2 ∈ pkg.defs →
      isCandidate typeName c1 = true → isCandidate typeName c2 = true →
      c1.Type.Underlying = c2.Type.Underlying)
    (hnames : ((pkg.defs.filterMap (declaredConstant (pkg.fullName ++ "." ++ typeName))).map
      (·.Name)).Nodup) :
    extract s pkg typeName a1 a2 = extract s pkg typeName b1 b2 := by
  have hca := hs lessByName (collectValues (pkg.fullName ++ "." ++ typeName) a2)
    lessByName_strictWeak
  have hcb := hs lessByName (collectValues (pkg.fullName ++ "." ++ typeName) b2)
    lessByName_strictWeak
  have hpa := hca.1.trans (collectValues_perm _ a2 pkg.defs ha2)
  have hpb := hcb.1.trans (collectValues_perm _ b2 pkg.defs hb2)
  have hsort : s lessByName (collectValues (pkg.fullName ++ "." ++ typeName) a2) =
      s lessByName (collectValues (pkg.fullName ++ "." ++ typeName) b2) :=
    sorted_perm_unique _ _ (hpa.trans hpb.symm) (((hpa.map (·.Name)).nodup_iff).mpr hnames)
      hca.2 hcb.2
  cases hda : findDef typeName a1 with
  | none =>
    have hnone := (findDef_eq_none_iff typeName a1).mp hda
    have hdb : findDef typeName b1 = none :=
      (findDef_eq_none_iff typeName b1).mpr
        (fun cur hcur => hnone cur (ha1.mem_iff.mpr (hb1.mem_iff.mp hcur)))
    rw [extract_of_findDef_none s pkg typeName a1 a2 hda,
      extract_of_findDef_none s pkg typeName b1 b2 hdb]
  | some da =>
    have hma := findDef_some typeName a1 da hda
    cases hdb : findDef typeName b1 with
    | none =>
      have hnone := (findDef_eq_none_iff typeName b1).mp hdb da
        (hb1.mem_iff.mpr (ha1.mem_iff.mp hma.1))
      rw [hma.2] at hnone
      cases hnone
    | some db =>
      have hmb := findDef_some typeName b1 db hdb
      have hu : da.Type.Underlying = db.Type.Underlying :=
        hdef da db (ha1.mem_iff.mp hma.1) (hb1.mem_iff.mp hmb.1) hma.2 hmb.2
      rw [extract_of_findDef_some s pkg typeName a1 a2 da hda,
        extract_of_findDef_some s pkg typeName b1 b2 db hdb, hu, hsort]

/-- Witness of C10 (as the code behaves): package paint, visited in the order
of the list and in the reverse order. -/
theorem extract_order_independent_witness :
    extract insertionSortFunc paintPkg "Color" paintDefs paintDefs =
      extract insertionSortFunc paintPkg "Color" paintDefs.reverse paintDefs.reverse :=
  extract_order_independent (fun less l => insertionSortFunc less l) insertionSortFunc_conforms
    paintPkg "Color" paintDefs paintDefs paintDefs.reverse paintDefs.reverse
    (List.Perm.refl _) (List.Perm.refl _) (List.reverse_perm _) (List.reverse_perm _)
    (by
      intro c1 c2 h1 h2 hc1 hc2
      have e1 : c1 = .TypeName "Color" colorType := by
        simp only [paintPkg, paintDefs, List.mem_cons, Option.some.injEq, List.mem_nil_iff,
          or_false, reduceCtorEq, false_or] at h1
        rcases h1 with rfl | rfl | rfl | rfl | rfl | rfl <;>
          first | rfl | exact absurd hc1 (by decide)
      have e2 : c2 = .TypeName "Color" colorType := by
        simp only [paintPkg, paintDefs, List.mem_cons, Option.some.injEq, List.mem_nil_iff,
          or_false, reduceCtorEq, false_or] at h2
        rcases h2 with rfl | rfl | rfl | rfl | rfl | rfl <;>
          first | rfl | exact absurd hc2 (by decide)
      rw [e1, e2])
    (by decide)

/-- C10 as stated fails.  With a type `Color` at package level and another
declared inside a function, the order of the first loop decides the kind of the
descriptor; with a constant `X` declared in two functions, the order of the
second loop decides the sequence of `Values`. -/
theorem extract_order_dependent_counterexample :
    (shadowDefs.reverse.Perm shadowPkg.defs ∧
      extract insertionSortFunc shadowPkg "Color" shadowDefs shadowDefs =
        .ok ⟨"example.com/paint.Color", "Color", "0", intKind, []⟩ ∧
      extract insertionSortFunc shadowPkg "Color" shadowDefs.reverse shadowDefs.reverse =
        .ok ⟨"example.com/paint.Color", "Color", "\"\"", stringKind, []⟩) ∧
    (twiceDefs.reverse.Perm twicePkg.defs ∧
      extract insertionSortFunc twicePkg "Color" twiceDefs twiceDefs =
        .ok ⟨"example.com/paint.Color", "Color", "0", intKind,
          [⟨"X", "1", .Const "X" colorType "1"⟩, ⟨"X", "2", .Const "X" colorType "2"⟩]⟩ ∧
      extract insertionSortFunc twicePkg "Color" twiceDefs.reverse twiceDefs.reverse =
        .ok ⟨"example.com/paint.Color", "Color", "0", intKind,
          [⟨"X", "2", .Const "X" colorType "2"⟩, ⟨"X", "1", .Const "X" colorType "1"⟩]⟩) := by
  decide

/-! ## The generated switches -/

theorem select_map {A L R T : Type} [DecidableEq T] (vals : List A) (f : A → Case L R) (dflt : R)
    (eval : L → T) (tag : T) :
    (SwitchStmt.mk (vals.map f) dflt).select eval tag =
      match vals.find? (fun a => decide (tag ∈ (f a).labels.map eval)) with
      | some a => (f a).body
      | none => dflt := by
  unfold SwitchStmt.select
  simp only [List.find?_map]
  have e : ((fun c : Case L R => decide (tag ∈ List.map eval c.labels)) ∘ f) =
      (fun a => decide (tag ∈ (f a).labels.map eval)) := rfl
  rw [e]
  cases List.find? (fun a => decide (tag ∈ (f a).labels.map eval)) vals <;> rfl

theorem runName_nameSwitch {V : Type} [DecidableEq V] (I : Interp V) (vals : List constantValue)
    (v : V) :
    runName I (nameSwitch vals) v =
      match vals.find? (fun c => decide (v = I.ident c.Name)) with
      | some c => c.Name
      | none => "" := by
  unfold runName nameSwitch
  rw [select_map]
  simp only [List.map_cons, List.map_nil, List.mem_singleton, Interp.evalV]
  cases vals.find? (fun c => decide (v = I.ident c.Name)) <;> rfl

theorem runLookup_lookupSwitch {V : Type} (I : Interp V) (vals : List constantValue)
    (empty name : String) :
    runLookup I (lookupSwitch vals empty) name =
      match vals.find? (fun c => decide (name = c.Name)) with
      | some c => (I.ident c.Name, true)
      | none => (I.literal empty, false) := by
  unfold runLookup lookupSwitch
  rw [select_map]
  simp only [List.map_cons, List.map_nil, List.mem_singleton, Interp.evalS]
  cases vals.find? (fun c => decide (name = c.Name)) <;> rfl

theorem lookup_name_vals {V : Type} [DecidableEq V] (I : Interp V) (vals : List constantValue)
    (empty : String) (c : constantValue) (hc : c ∈ vals) :
    runLookup I (lookupSwitch vals empty) (runName I (nameSwitch vals) (I.ident c.Name)) =
      (I.ident c.Name, true) := by
  rw [runName_nameSwitch]
  cases h0 : vals.find? (fun c0 => decide (I.ident c.Name = I.ident c0.Name)) with
  | none =>
    have := List.find?_eq_none.mp h0 c hc
    simp at this
  | some c0 =>
    have hv : I.ident c.Name = I.ident c0.Name := by simpa using List.find?_some h0
    have hm : c0 ∈ vals := List.mem_of_find?_eq_some h0
    simp only []
    rw [runLookup_lookupSwitch]
    cases h1 : vals.find? (fun c1 => decide (c0.Name = c1.Name)) with
    | none =>
      have := List.find?_eq_none.mp h1 c0 hm
      simp at this
    | some c1 =>
      have hn : c0.Name = c1.Name := by simpa using List.find?_some h1
      simp only []
      rw [hv, hn]

theorem lookup_false_iff {V : Type} (I : Interp V) (vals : List constantValue)
    (empty name : String) :
    ((runLookup I (lookupSwitch vals empty) name).2 = false ↔ ∀ c ∈ vals, c.Name ≠ name) ∧
    ((∀ c ∈ vals, c.Name ≠ name) →
      runLookup I (lookupSwitch vals empty) name = (I.literal empty, false)) := by
  rw [runLookup_lookupSwitch]
  cases h1 : vals.find? (fun c1 => decide (name = c1.Name)) with
  | none =>
    have hall := List.find?_eq_none.mp h1
    simp only [decide_eq_true_eq] at hall
    refine ⟨⟨fun _ c hc e => hall c hc e.symm, fun _ => rfl⟩, fun _ => rfl⟩
  | some c1 =>
    have hn : name = c1.Name := by simpa using List.find?_some h1
    have hm : c1 ∈ vals := List.mem_of_find?_eq_some h1
    refine ⟨⟨fun h => by simp at h, fun h => absurd hn.symm (h c1 hm)⟩,
      fun h => absurd hn.symm (h c1 hm)⟩

theorem mem_NameOrder (cs : constants) (c : constantValue) :
    c ∈ cs.NameOrder ↔ c ∈ cs.Values :=
  (insertionSortFunc_perm lessByName cs.Values).mem_iff

theorem declaring_ident {V : Type} (I : Interp V) (vals : List constantValue)
    (hn : (vals.map (·.Name)).Nodup) (c : constantValue) (hc : c ∈ vals) :
    (I.declaring vals).ident c.Name = I.literal c.Value := by
  unfold Interp.declaring
  simp only []
  cases h : vals.find? (fun c0 => decide (c0.Name = c.Name)) with
  | none =>
    have := List.find?_eq_none.mp h c hc
    simp at this
  | some c0 =>
    have hname : c0.Name = c.Name := by simpa using List.find?_some h
    have hm : c0 ∈ vals := List.mem_of_find?_eq_some h
    have : c0 = c := List.inj_on_of_nodup_map hn hm hc hname
    rw [this]

/-- C8, as the code behaves: for a descriptor whose constants have pairwise
distinct names, in the package that declares them (every declared identifier
denotes the value of its entry), the `Name` and `Lookup` methods emitted by
`genWithName` and `genWithLookup` (and those of `genTplText` in generator.go),
read as first-matching-case functions, satisfy `Lookup(Name(v)) == (v, true)`
for the value `v` of every declared constant; `Lookup` returns `ok == false`
exactly for the names that no constant of the descriptor has, and then returns
`Empty`. -/
theorem lookup_name_roundtrip {V : Type} [DecidableEq V] (I : Interp V) (d : templateData)
    (nameSw : SwitchStmt ValExpr StrExpr) (lookupSw : SwitchStmt StrExpr (ValExpr × Bool))
    (hn : genWithName d = some nameSw) (hl : genWithLookup d = some lookupSw)
    (hdistinct : (d.Constants.Values.map (·.Name)).Nodup) :
    (∀ c ∈ d.Constants.Values,
      (I.declaring d.Constants.Values).ident c.Name = I.literal c.Value ∧
      runLookup (I.declaring d.Constants.Values) lookupSw
          (runName (I.declaring d.Constants.Values) nameSw (I.literal c.Value)) =
        (I.literal c.Value, true)) ∧
    (∀ name, (runLookup (I.declaring d.Constants.Values) lookupSw name).2 = false ↔
      ∀ c ∈ d.Constants.Values, c.Name ≠ name) ∧
    (∀ name, (∀ c ∈ d.Constants.Values, c.Name ≠ name) →
      runLookup (I.declaring d.Constants.Values) lookupSw name =
        (I.literal d.Constants.Empty, false)) ∧
    (∀ c ∈ d.Constants.Values,
      runLookup (I.declaring d.Constants.Values) (genTplTextLookup d.Constants)
          (runName (I.declaring d.Constants.Values) (genTplTextName d.Constants)
            (I.literal c.Value)) =
        (I.literal c.Value, true)) ∧
    (∀ name,
      (runLookup (I.declaring d.Constants.Values) (genTplTextLookup d.Constants) name).2 = false ↔
        ∀ c ∈ d.Constants.Values, c.Name ≠ name) := by
  unfold genWithName at hn
  unfold genWithLookup at hl
  split at hn
  · split at hl
    · cases hn
      cases hl
      refine ⟨?_, ?_, ?_, ?_, ?_⟩
      · intro c hc
        have hid := declaring_ident I d.Constants.Values hdistinct c hc
        refine ⟨hid, ?_⟩
        rw [← hid]
        exact lookup_name_vals _ _ _ c ((mem_NameOrder _ c).mpr hc)
      · intro name
        rw [(lookup_false_iff _ d.Constants.NameOrder d.Constants.Empty name).1]
        constructor
        · intro h c hc
          exact h c ((mem_NameOrder _ c).mpr hc)
        · intro h c hc
          exact h c ((mem_NameOrder _ c).mp hc)
      · intro name h
        exact (lookup_false_iff (I.declaring d.Constants.Values) d.Constants.NameOrder
          d.Constants.Empty name).2 (fun c hc => h c ((mem_NameOrder _ c).mp hc))
      · intro c hc
        have hid := declaring_ident I d.Constants.Values hdistinct c hc
        rw [← hid]
        exact lookup_name_vals _ _ _ c hc
      · intro name
        exact (lookup_false_iff _ d.Constants.Values d.Constants.Empty name).1
    · cases hl
  · cases hn

/-- Witness of C8 (as the code behaves): the generated methods of `Color` in
package paint, whose constants `Blue`, `Green`, `Red` are 2, 1 and 0. -/
theorem lookup_name_roundtrip_witness :
    (∀ c ∈ paintData.Constants.Values,
      ((paintInterp toString).declaring paintData.Constants.Values).ident c.Name =
        readDecimal c.Value ∧
      runLookup ((paintInterp toString).declaring paintData.Constants.Values)
          (lookupSwitch paintData.Constants.NameOrder paintData.Constants.Empty)
          (runName ((paintInterp toString).declaring paintData.Constants.Values)
            (nameSwitch paintData.Constants.NameOrder) (readDecimal c.Value)) =
        (readDecimal c.Value, true)) ∧
    runLookup ((paintInterp toString).declaring paintData.Constants.Values)
      (lookupSwitch paintData.Constants.NameOrder paintData.Constants.Empty) "Blue" = (2, true) ∧
    runLookup ((paintInterp toString).declaring paintData.Constants.Values)
      (lookupSwitch paintData.Constants.NameOrder paintData.Constants.Empty) "Purple" =
        (0, false) :=
  ⟨(lookup_name_roundtrip (paintInterp toString) paintData
      (nameSwitch paintData.Constants.NameOrder)
      (lookupSwitch paintData.Constants.NameOrder paintData.Constants.Empty) rfl rfl
      (by decide)).1,
   by decide, by decide⟩

/-- C8 as stated fails.  For `const (_ Color = iota; Red; _)` the descriptor
that `extract` returns declares the values 1, 0 and 2 under the names `Red`,
`_` and `_`.  Whatever the identifiers denote, one of the three values is not
the value of any name, `Name` returns the empty string for it and `Lookup`
returns `ok == false`: `Lookup(Name(v))` is not `(v, true)`. -/
theorem lookup_name_repeated_counterexample :
    extract insertionSortFunc blankPkg "Color" blankDefs blankDefs = .ok blankData.Constants ∧
    ∃ nameSw lookupSw, genWithName blankData = some nameSw ∧
      genWithLookup blankData = some lookupSw ∧
      ∀ (ident : String → Int) (conv : Int → String),
        ∃ c ∈ blankData.Constants.Values,
          runLookup ⟨ident, readDecimal, fun t => t, conv⟩ lookupSw
              (runName ⟨ident, readDecimal, fun t => t, conv⟩ nameSw (readDecimal c.Value)) ≠
            (readDecimal c.Value, true) := by
  refine ⟨by decide, _, _, rfl, rfl, ?_⟩
  intro ident conv
  have hno : blankData.Constants.NameOrder =
      [⟨"Red", "1", .Const "Red" colorType "1"⟩, ⟨"_", "0", .Const "_" colorType "0"⟩,
       ⟨"_", "2", .Const "_" colorType "2"⟩] := by decide
  have key : ∀ (v : Int), v ≠ ident "Red" → v ≠ ident "_" →
      runLookup ⟨ident, readDecimal, fun t => t, conv⟩
          (lookupSwitch blankData.Constants.NameOrder blankData.Constants.Empty)
          (runName ⟨ident, readDecimal, fun t => t, conv⟩
            (nameSwitch blankData.Constants.NameOrder) v) ≠ (v, true) := by
    intro v h1 h2 heq
    rw [runName_nameSwitch, hno] at heq
    simp only [List.find?, h1, h2, decide_False] at heq
    rw [runLookup_lookupSwitch] at heq
    have hfind : List.find? (fun c : constantValue => decide ("" = c.Name))
        [⟨"Red", "1", .Const "Red" colorType "1"⟩, ⟨"_", "0", .Const "_" colorType "0"⟩,
         ⟨"_", "2", .Const "_" colorType "2"⟩] = none := by decide
    rw [hfind] at heq
    have := congrArg Prod.snd heq
    cases this
  have h1 : readDecimal "1" = 1 := by decide
  have h0 : readDecimal "0" = 0 := by decide
  have h2 : readDecimal "2" = 2 := by decide
  by_cases a1 : (1 : Int) ≠ ident "Red" ∧ (1 : Int) ≠ ident "_"
  · exact ⟨⟨"Red", "1", .Const "Red" colorType "1"⟩, by decide, by
      rw [h1]
      exact key 1 a1.1 a1.2⟩
  · by_cases a0 : (0 : Int) ≠ ident "Red" ∧ (0 : Int) ≠ ident "_"
    · exact ⟨⟨"_", "0", .Const "_" colorType "0"⟩, by decide, by
        rw [h0]
        exact key 0 a0.1 a0.2⟩
    · have a2 : (2 : Int) ≠ ident "Red" ∧ (2 : Int) ≠ ident "_" := by
        constructor <;> omega
      exact ⟨⟨"_", "2", .Const "_" colorType "2"⟩, by decide, by
        rw [h2]
        exact key 2 a2.1 a2.2⟩

/-- C9 at the failing input: the `UnmarshalText` generated for `Color` in
package paint switches on `string(receiver)`, not on `text`.  Whatever the
conversion of the receiver gives, its result is the same for every text, so for
no receiver does it store `Red` after `MarshalText(Red)` and `Green` after
`MarshalText(Green)`.  The fragment for the string kind has the same tag. -/
theorem unmarshal_ignores_text :
    ∃ p, genMarshal paintData = some p ∧
      p.unmarshalTag = .stringOfReceiver ∧
      (genStrWithMarshal paintData).map (·.unmarshalTag) = some .stringOfReceiver ∧
      (∀ (conv : Int → String) (r : Int) (t1 t2 : String),
        runUnmarshalText (paintInterp conv) p r t1 = runUnmarshalText (paintInterp conv) p r t2) ∧
      (∀ (conv : Int → String) (r : Int),
        runMarshalText (paintInterp conv) p 0 = some "0" ∧
        runMarshalText (paintInterp conv) p 1 = some "1" ∧
        ¬ (runUnmarshalText (paintInterp conv) p r "0" = some 0 ∧
           runUnmarshalText (paintInterp conv) p r "1" = some 1)) := by
  refine ⟨_, rfl, rfl, rfl, fun conv r t1 t2 => rfl, fun conv r => ⟨rfl, rfl, ?_⟩⟩
  rintro ⟨h0, h1⟩
  have e : runUnmarshalText (paintInterp conv) ((genMarshal paintData).get rfl) r "0" =
      runUnmarshalText (paintInterp conv) ((genMarshal paintData).get rfl) r "1" := rfl
  have h0b : runUnmarshalText (paintInterp conv) ((genMarshal paintData).get rfl) r "0" = some 0 := h0
  have h1b : runUnmarshalText (paintInterp conv) ((genMarshal paintData).get rfl) r "1" = some 1 := h1
  rw [e, h1b] at h0b
  cases h0b

/-! ## Command.Run and run -/

/-- C1 at the failing input: when `ioutil.ReadFile` succeeds, the first branch
(`os.IsNotExist(err) || err == nil`) sets `write`, whatever the file holds, and
the comparison with `bytes.Equal` is never reached.  In `paintWorld` with a
destination that already holds the assembled bytes, `Run` writes the file
again. -/
theorem run_writes_identical_file :
    (∀ (w : World) (path out existing : String),
      (writeIfChanged w path out existing none).2 = [Event.write path out 0o644]) ∧
    (paintWorld paintCmd (paintOut, none)).readFile paintCmd.out = (paintOut, none) ∧
    Command.Run (paintWorld paintCmd (paintOut, none)) paintCmd ["Color"] =
      (.ok (), [.load ["-tags="] ".", .render .genTpl "Color", .render .intTpl "Color",
        .format "enum_gen.go", .read "enum_gen.go", .write "enum_gen.go" paintOut 0o644]) := by
  refine ⟨?_, rfl, by decide⟩
  intro w path out existing
  unfold writeIfChanged
  cases h : w.writeFile path out 0o644 <;> simp [IsNotExist, h]

/-- C7: if the package specifier is empty `Run` returns
`usageError("-pkg not set")`, otherwise if the output path is empty it returns
`usageError("-out not set")`, in both cases without any event (no package
load, no rendering, no file access); `IsUsageError` holds of the error; and
`run` of main.go, when the command line parses to this command, writes the
usage text, the line `Flags:`, the flag defaults (on standard error), an empty
line and the line of the error, in this order, and returns nil. -/
theorem run_usage_error (w : World) (cmd : Command) (args : List String)
    (h : cmd.pkg = "" ∨ cmd.out = "") :
    Command.Run w cmd args =
      (.error (.usageError (if cmd.pkg = "" then "-pkg not set" else "-out not set")), []) ∧
    IsUsageError (Command.Run w cmd args).1.toError = true ∧
    ∀ osArgs, w.flagParse osArgs = (cmd, .ok args) →
      run w osArgs =
        (.ok (), [],
          [.line Usage, .line "Flags:", .defaults, .line "",
            .error (.usageError (if cmd.pkg = "" then "-pkg not set" else "-out not set"))]) ∧
      (run w osArgs).2.2.filter (fun o => decide (o.stream = .stdout)) =
        [.line Usage, .line "Flags:", .line "",
          .error (.usageError (if cmd.pkg = "" then "-pkg not set" else "-out not set"))] := by
  have hrun : Command.Run w cmd args =
      (.error (.usageError (if cmd.pkg = "" then "-pkg not set" else "-out not set")), []) := by
    unfold Command.Run
    by_cases hp : cmd.pkg = ""
    · rw [if_pos hp, if_pos hp]
    · have ho : cmd.out = "" := h.resolve_left hp
      rw [if_neg hp, if_pos ho, if_neg hp]
  refine ⟨hrun, ?_, ?_⟩
  · rw [hrun]
    rfl
  · intro osArgs hparse
    have hr : run w osArgs =
        (.ok (), [],
          [.line Usage, .line "Flags:", .defaults, .line "",
            .error (.usageError (if cmd.pkg = "" then "-pkg not set" else "-out not set"))]) := by
      unfold run
      rw [hparse]
      simp only [hrun]
      rfl
    refine ⟨hr, ?_⟩
    rw [hr]
    rfl

/-- Witness of C7: the command lines `enumgen -pkg= Color` and
`enumgen -out= Color`. -/
theorem run_usage_error_witness :
    (Command.Run (paintWorld noPkgCmd (paintOut, none)) noPkgCmd ["Color"] =
        (.error (.usageError "-pkg not set"), []) ∧
      run (paintWorld noPkgCmd (paintOut, none)) ["Color"] =
        (.ok (), [], [.line Usage, .line "Flags:", .defaults, .line "",
          .error (.usageError "-pkg not set")])) ∧
    (Command.Run (paintWorld noOutCmd (paintOut, none)) noOutCmd ["Color"] =
        (.error (.usageError "-out not set"), []) ∧
      run (paintWorld noOutCmd (paintOut, none)) ["Color"] =
        (.ok (), [], [.line Usage, .line "Flags:", .defaults, .line "",
          .error (.usageError "-out not set")])) :=
  ⟨⟨(run_usage_error (paintWorld noPkgCmd (paintOut, none)) noPkgCmd ["Color"]
        (Or.inl rfl)).1,
    ((run_usage_error (paintWorld noPkgCmd (paintOut, none)) noPkgCmd ["Color"]
        (Or.inl rfl)).2.2 ["Color"] rfl).1⟩,
   ⟨(run_usage_error (paintWorld noOutCmd (paintOut, none)) noOutCmd ["Color"]
        (Or.inr rfl)).1,
    ((run_usage_error (paintWorld noOutCmd (paintOut, none)) noOutCmd ["Color"]
        (Or.inr rfl)).2.2 ["Color"] rfl).1⟩⟩

end Enumgen
